import Mathlib

/-!
Shallow embedding of the Stockfish engine-session layer of the Chess-v10
repository, together with theorems settling the specification claims.

Embedded source files:
* `src/utils/uci.ts` — `parseInfoLine` (the UCI info-line parser);
* `src/engine/stockfish.worker.ts` (first, classic-worker variant) —
  `sendCommand` / `processQueue` / `handleEngineLine` and the message handler;
* `src/engine/stockfish.worker.js` — the classic worker actually loaded by the
  service (`new Worker(new URL('./stockfish.worker.js', ...))`), in particular
  its `onmessage` cases `init` and `analyze`;
* `stockfishService.ts` (the `StockfishService` class) — state, `setPosition`,
  `setPositionFromMoves`, `analyze`, `stop`, `handleEngineLine`.

JavaScript conventions used throughout the embedding:
* `parseInt` results are modelled as `Option Int`, with `none` standing for
  `NaN` (obtained on a missing token or a token with no digit prefix); for the
  truthiness tests performed by the code, `NaN`, `undefined` and `0` are all
  falsy, which the model reflects through `truthyInt`.
* `setTimeout`-scheduled callbacks are modelled as an explicit list of pending
  calls (`timers`) on the service state, fired by `fireNextTimer`.
* the external chess-rules engine (chess.js) used only for SAN conversion is
  modelled as an explicit function parameter `sanConv : String → List String →
  List String` (FEN and UCI move list in, SAN move list out).
-/

namespace ChessV10

/-! ## Primitive JavaScript string operations

`split(' ')` and `startsWith` are re-implemented structurally over the
character list so that every definition below reduces inside the kernel. -/

/-- Accumulator loop for `jsSplit` (accumulator held reversed). -/
def jsSplitAux : List Char → List Char → List String
  | [], acc => [⟨acc.reverse⟩]
  | ' ' :: rest, acc => ⟨acc.reverse⟩ :: jsSplitAux rest []
  | c :: rest, acc => jsSplitAux rest (c :: acc)

/-- JS `line.split(' ')`: split at every single space character, keeping
empty fragments between consecutive separators. -/
def jsSplit (s : String) : List String := jsSplitAux s.data []

/-- JS `line.startsWith(p)`. -/
def jsStartsWith (s p : String) : Bool := s.data.take p.data.length == p.data

/-! ## JavaScript `parseInt` (radix unspecified) on a token -/

/-- Value of a hexadecimal digit, `none` if the character is not one. -/
def hexDigitVal (c : Char) : Option Nat :=
  if '0' ≤ c ∧ c ≤ '9' then some (c.toNat - '0'.toNat)
  else if 'a' ≤ c ∧ c ≤ 'f' then some (c.toNat - 'a'.toNat + 10)
  else if 'A' ≤ c ∧ c ≤ 'F' then some (c.toNat - 'A'.toNat + 10)
  else none

/-- Fold a digit list into a `Nat` given a base and per-digit value. -/
def digitsVal (base : Nat) (val : Char → Option Nat) (l : List Char) : Nat :=
  l.foldl (fun acc c => acc * base + (val c).getD 0) 0

/-- JS `parseInt` digit scan after the optional sign: a `0x`/`0X` prefix
switches to hexadecimal, otherwise the longest decimal-digit prefix is taken;
no digits at all gives `NaN` (`none`). -/
def jsParseNatCore : List Char → Option Nat
  | '0' :: 'x' :: rest =>
      let ds := rest.takeWhile (fun c => (hexDigitVal c).isSome)
      if ds.isEmpty then none else some (digitsVal 16 hexDigitVal ds)
  | '0' :: 'X' :: rest =>
      let ds := rest.takeWhile (fun c => (hexDigitVal c).isSome)
      if ds.isEmpty then none else some (digitsVal 16 hexDigitVal ds)
  | l =>
      let ds := l.takeWhile Char.isDigit
      if ds.isEmpty then none else
        some (digitsVal 10 (fun c => some (c.toNat - '0'.toNat)) ds)

/-- JS `parseInt(string)`: trim leading whitespace, read an optional sign,
then scan digits; `none` models `NaN`. -/
def jsParseInt (s : String) : Option Int :=
  let l := s.data.dropWhile (fun c => c = ' ' ∨ c = '\t' ∨ c = '\n' ∨ c = '\r')
  match l with
  | '-' :: rest => (jsParseNatCore rest).map (fun n => -(n : Int))
  | '+' :: rest => (jsParseNatCore rest).map (fun n => (n : Int))
  | rest => (jsParseNatCore rest).map (fun n => (n : Int))

/-- JS `parseInt(tokens[++i])` where the token may be out of range
(`undefined`): `parseInt(undefined)` is `NaN`. -/
def jsParseIntOpt : Option String → Option Int
  | none => none
  | some s => jsParseInt s

/-! ## `src/utils/uci.ts` -/

/-- `ScoreInfo` from `uci.ts`. The `type` token may be absent when the line
ends right after `score` (`tokens[i]` is `undefined`), and the value may be
`NaN`; both are modelled with `Option`. -/
structure ScoreInfo where
  type : Option String
  value : Option Int
deriving Repr, DecidableEq

/-- `InfoLine` from `uci.ts`: every field optional, absent (`undefined`)
modelled as `none`; a field assigned `NaN` is also modelled as `none`
(both are falsy in the truthiness tests the consumers perform). -/
structure InfoLine where
  depth : Option Int := none
  seldepth : Option Int := none
  multipv : Option Int := none
  score : Option ScoreInfo := none
  pv : Option (List String) := none
  nodes : Option Int := none
  nps : Option Int := none
  time : Option Int := none
deriving Repr, DecidableEq

/-- The token-scanning loop of `parseInfoLine` (`for i = 1; ...` with the
`tokens[++i]` consumption pattern): each recognized key consumes the next
token (two for `score`), `pv` consumes all remaining tokens and stops,
unknown keys are skipped. -/
def parseInfoTokens : List String → InfoLine → InfoLine
  | [], info => info
  | ["depth"], info => { info with depth := none }
  | "depth" :: v :: rest, info =>
      parseInfoTokens rest { info with depth := jsParseInt v }
  | ["seldepth"], info => { info with seldepth := none }
  | "seldepth" :: v :: rest, info =>
      parseInfoTokens rest { info with seldepth := jsParseInt v }
  | ["multipv"], info => { info with multipv := none }
  | "multipv" :: v :: rest, info =>
      parseInfoTokens rest { info with multipv := jsParseInt v }
  | ["score"], info => { info with score := some ⟨none, none⟩ }
  | ["score", t], info => { info with score := some ⟨some t, none⟩ }
  | "score" :: t :: v :: rest, info =>
      parseInfoTokens rest { info with score := some ⟨some t, jsParseInt v⟩ }
  | ["nodes"], info => { info with nodes := none }
  | "nodes" :: v :: rest, info =>
      parseInfoTokens rest { info with nodes := jsParseInt v }
  | ["nps"], info => { info with nps := none }
  | "nps" :: v :: rest, info =>
      parseInfoTokens rest { info with nps := jsParseInt v }
  | ["time"], info => { info with time := none }
  | "time" :: v :: rest, info =>
      parseInfoTokens rest { info with time := jsParseInt v }
  | "pv" :: rest, info => { info with pv := some rest }
  | _ :: rest, info => parseInfoTokens rest info

/-- `parseInfoLine` from `uci.ts`: `null` (here `none`) unless the line starts
with `"info "`; otherwise scan the tokens after the leading `info`. -/
def parseInfoLine (line : String) : Option InfoLine :=
  if jsStartsWith line "info " then
    some (parseInfoTokens ((jsSplit line).drop 1) {})
  else none

/-! ## JavaScript truthiness on optional numbers -/

/-- Truthiness of a JS numeric field: `undefined`, `NaN` (both `none`) and
`0` are falsy, every other number is truthy. -/
def truthyInt : Option Int → Bool
  | none => false
  | some v => v != 0

/-! ## `src/engine/stockfish.worker.ts` (classic-worker variant)

State of the worker module: whether the engine module has been loaded
(`engine` non-null), the `isReady` flag, the `commandQueue`, plus the
observable traces — lines posted to the engine (`engineSent`) and messages
posted back to the main thread (`mainPosted`). -/

/-- A message the ts worker posts to the main thread. -/
inductive TsWorkerOut where
  | engineLine (data : String)
  | ready
  | bestmove (move : Option String)
  | errorMsg (data : String)
deriving Repr, DecidableEq

/-- Module-level state of `stockfish.worker.ts`. -/
structure TsWorkerState where
  engine : Bool
  isReady : Bool
  commandQueue : List String
  engineSent : List String
  mainPosted : List TsWorkerOut
deriving Repr, DecidableEq

/-- `sendCommand(cmd)`: dropped when the engine module is not loaded;
transmitted immediately when `isReady`; pushed onto `commandQueue`
otherwise. -/
def tsSendCommand (cmd : String) (s : TsWorkerState) : TsWorkerState :=
  if !s.engine then s
  else if s.isReady then { s with engineSent := s.engineSent ++ [cmd] }
  else { s with commandQueue := s.commandQueue ++ [cmd] }

/-- `processQueue()`: shift every queued command and post it to the engine
when it is truthy (non-empty) and the engine is loaded. -/
def tsProcessQueue (s : TsWorkerState) : TsWorkerState :=
  { s with
    commandQueue := []
    engineSent := s.engineSent ++
      (if s.engine then s.commandQueue.filter (fun c => c ≠ "") else []) }

/-- `handleEngineLine(line)` of the ts worker: forward the line to the main
thread; on `uciok` post `isready` straight to the engine; on the first
`readyok` set `isReady`, flush the queue and notify the main thread; on a
`bestmove` line forward the move. (The `uciok` branch calls
`engine.postMessage` directly; it only ever runs with the engine loaded,
since the line originates from the engine.) -/
def tsHandleEngineLine (line : String) (s : TsWorkerState) : TsWorkerState :=
  let s := { s with mainPosted := s.mainPosted ++ [.engineLine line] }
  if line = "uciok" then
    { s with engineSent := s.engineSent ++ ["isready"] }
  else if line = "readyok" then
    if !s.isReady then
      let s := tsProcessQueue { s with isReady := true }
      { s with mainPosted := s.mainPosted ++ [.ready] }
    else s
  else if jsStartsWith line "bestmove " then
    { s with mainPosted := s.mainPosted ++ [.bestmove ((jsSplit line).get? 1)] }
  else s

/-! ## `src/engine/stockfish.worker.js` (the worker loaded by the service) -/

/-- `data` of an `init` message (`{ multiPv = 3, threads = 1, skill }`
destructuring: `multiPv` and `threads` have defaults, `skill` does not). -/
structure JsInitData where
  multiPv : Option Int := none
  threads : Option Int := none
  skill : Option Int := none
deriving Repr, DecidableEq

/-- `data` of an `analyze` message (`AnalyzeParams` in the service). -/
structure AnalyzeParams where
  depth : Option Int := none
  movetimeMs : Option Int := none
deriving Repr, DecidableEq

/-- A message from the main thread to the js worker (`e.data`), with
possibly-`undefined` payloads modelled as `Option`. -/
inductive JsWorkerMsg where
  | init (data : Option JsInitData)
  | setPosition (fen : String)
  | setPositionFromMoves (moves : Option (List String))
  | analyze (data : Option AnalyzeParams)
  | stop
  | setOption (name : String) (value : String)
  | newGame
deriving Repr, DecidableEq

/-- Module-level state of `stockfish.worker.js`: whether the engine resolved,
and the trace of commands handed to `self.sendCommand` (which forwards them
to the engine). -/
structure JsWorkerState where
  engine : Bool
  engineSent : List String
deriving Repr, DecidableEq

/-- The `init` case of the js worker `onmessage`: MultiPV, Threads and a
fixed Hash size are always set; `Skill Level` is set only when `skill` is
provided (`skill !== undefined`); an `isready` probe closes the batch. -/
def jsInitCmds (data : Option JsInitData) : List String :=
  let d := data.getD {}
  ["setoption name MultiPV value " ++ toString (d.multiPv.getD 3),
   "setoption name Threads value " ++ toString (d.threads.getD 1),
   "setoption name Hash value 128"] ++
  (match d.skill with
   | some k => ["setoption name Skill Level value " ++ toString k]
   | none => []) ++
  ["isready"]

/-- The `analyze` case of the js worker `onmessage` (identical in the ts
worker): `movetimeMs` governs when truthy, else `depth` when truthy, else
the fixed default `go depth 20`; exactly one `go` line results. -/
def jsGoCommand (data : Option AnalyzeParams) : String :=
  let d := data.getD {}
  if truthyInt d.movetimeMs then "go movetime " ++ toString (d.movetimeMs.getD 0)
  else if truthyInt d.depth then "go depth " ++ toString (d.depth.getD 0)
  else "go depth 20"

/-- `self.onmessage` of `stockfish.worker.js`: every message is ignored while
the engine has not resolved (`if (!self.engine) return`); afterwards each
case forwards the corresponding UCI line(s) through `self.sendCommand`. -/
def jsWorkerOnMessage (msg : JsWorkerMsg) (s : JsWorkerState) : JsWorkerState :=
  if !s.engine then s
  else
    let cmds : List String :=
      match msg with
      | .init data => jsInitCmds data
      | .setPosition fen => ["position fen " ++ fen]
      | .setPositionFromMoves moves =>
          match moves with
          | some (m :: ms) => ["position startpos moves " ++ " ".intercalate (m :: ms)]
          | _ => ["position startpos"]
      | .analyze data => [jsGoCommand data]
      | .stop => ["stop"]
      | .setOption name value =>
          ["setoption name " ++ name ++ " value " ++ value, "isready"]
      | .newGame => ["ucinewgame", "isready"]
    { s with engineSent := s.engineSent ++ cmds }

/-! ## `stockfishService.ts` — the `StockfishService` class

The service owns the published `StockfishState`, a `Map<number, PvLine>`
(`linesMap`, modelled as an insertion-ordered association list), the
remembered FEN, the messages it posts to its worker, and the callbacks it
has scheduled with `setTimeout` (modelled as an explicit pending list;
the numeric delays are abstated away — only which calls are pending, in
scheduling order, matters to the claims). -/

/-- A `PvLine` of the service (`pv` in UCI moves, `san` present only when
the conversion produced at least one move). -/
structure PvLine where
  multipv : Int
  score : ScoreInfo
  depth : Int
  seldepth : Option Int := none
  pv : List String
  san : Option (List String) := none
  nodes : Option Int := none
  nps : Option Int := none
  time : Option Int := none
deriving Repr, DecidableEq

/-- The published `StockfishState`. -/
structure StockfishState where
  ready : Bool
  thinking : Bool
  lines : List PvLine
  bestMove : Option String := none
  raw : List String
  error : Option String := none
deriving Repr, DecidableEq

/-- `StockfishOptions` of the service has exactly the fields of the worker's
`init` payload (`multiPv?`, `threads?`, `skill?`). -/
abbrev StockfishOptions := JsInitData

/-- A callback scheduled with `setTimeout` by the service. -/
inductive SchedCall where
  | initCall (options : Option StockfishOptions)
  | setPositionCall (fen : String)
  | setPositionFromMovesCall (moves : List String)
  | analyzeCall (params : Option AnalyzeParams)
  | setOptionCall (name : String) (value : String)
  | newGameCall
deriving Repr, DecidableEq

/-- Full private state of a `StockfishService` instance. `worker` records
whether `new Worker(...)` succeeded (`this.worker` non-null). -/
structure ServiceState where
  worker : Bool
  state : StockfishState
  linesMap : List (Int × PvLine)
  isEngineLoading : Bool
  currentFen : String
  workerPosted : List JsWorkerMsg
  timers : List SchedCall
deriving Repr, DecidableEq

/-- `this.worker?.postMessage(m)` — a no-op when the worker is null. -/
def postToWorker (m : JsWorkerMsg) (s : ServiceState) : ServiceState :=
  if s.worker then { s with workerPosted := s.workerPosted ++ [m] } else s

/-- `Map.get` on the insertion-ordered association list. -/
def mapGet (m : List (Int × PvLine)) (k : Int) : Option PvLine :=
  (m.find? (fun p => p.1 == k)).map Prod.snd

/-- `Map.set`: overwrite in place when the key exists (JS `Map` keeps the
original insertion position), append otherwise. -/
def mapSet (m : List (Int × PvLine)) (k : Int) (v : PvLine) : List (Int × PvLine) :=
  if m.any (fun p => p.1 == k) then
    m.map (fun p => if p.1 == k then (k, v) else p)
  else m ++ [(k, v)]

/-- Insert one line into a list sorted by ascending `multipv`. -/
def insertByMultipv (x : PvLine) : List PvLine → List PvLine
  | [] => [x]
  | y :: ys => if x.multipv ≤ y.multipv then x :: y :: ys else y :: insertByMultipv x ys

/-- `Array.from(map.values()).sort((a, b) => a.multipv - b.multipv)`:
ascending by `multipv` (the map keys are exactly the `multipv` values, so
they are pairwise distinct and stability is irrelevant). -/
def sortLines : List PvLine → List PvLine
  | [] => []
  | x :: xs => insertByMultipv x (sortLines xs)

/-- `handleEngineLine(line)` of the service, parameterized by the external
chess.js SAN conversion `sanConv` (current FEN and UCI moves in, SAN moves
out — `convertPvToSan` with its early-truncation behaviour is entirely inside
that external call). Appends the line to the bounded raw log, then: `uciok`
posts an `init` message (no payload) back to the worker, the first `readyok`
sets `ready`, a `bestmove` line records the move and clears `thinking`, and
an `info` line with all of `multipv`, `score`, `pv`, `depth` truthy updates
the variation map under the monotonic-depth rule. -/
def serviceHandleEngineLine (sanConv : String → List String → List String)
    (line : String) (s : ServiceState) : ServiceState :=
  -- `if (!line || typeof line !== 'string') return` — the only falsy string is "".
  if line = "" then s
  else
    let s := { s with
      state.raw := (s.state.raw.drop (s.state.raw.length - 99)) ++ [line] }
    if line = "uciok" then postToWorker (.init none) s
    else if line = "readyok" then
      if !s.state.ready then { s with state.ready := true } else s
    else if jsStartsWith line "bestmove " then
      { s with state.bestMove := (jsSplit line).get? 1, state.thinking := false }
    else if jsStartsWith line "info " then
      match parseInfoLine line with
      | none => s
      | some info =>
        if truthyInt info.multipv && info.score.isSome && info.pv.isSome &&
            truthyInt info.depth then
          let multipv := info.multipv.getD 0
          let existing := mapGet s.linesMap multipv
          if existing.isNone || info.depth.getD 0 ≥ (existing.map PvLine.depth).getD 0 then
            let sanMoves := sanConv s.currentFen (info.pv.getD [])
            let pvLine : PvLine :=
              { multipv := multipv
                score := info.score.getD ⟨none, none⟩
                depth := info.depth.getD 0
                seldepth := info.seldepth
                pv := info.pv.getD []
                san := if sanMoves.length > 0 then some sanMoves else none
                nodes := info.nodes
                nps := info.nps
                time := info.time }
            let m := mapSet s.linesMap multipv pvLine
            { s with linesMap := m, state.lines := sortLines (m.map Prod.snd) }
          else s
        else s
    else s

/-- `stop()`: post `stop` to the worker only when ready; always clear the
`thinking` flag. -/
def serviceStop (s : ServiceState) : ServiceState :=
  let s := if s.state.ready then postToWorker .stop s else s
  { s with state.thinking := false }

/-- `analyze(params)`: clear the variation map, publish
`thinking = true, lines = [], bestMove = undefined`, then either post the
`analyze` message (ready) or re-schedule itself via `setTimeout` (not
ready). -/
def serviceAnalyze (params : Option AnalyzeParams) (s : ServiceState) : ServiceState :=
  let s := { s with
    linesMap := []
    state := { s.state with thinking := true, lines := [], bestMove := none } }
  if s.state.ready then postToWorker (.analyze params) s
  else { s with timers := s.timers ++ [.analyzeCall params] }

/-- `setPosition(fen)`: remember the FEN, stop a running search, clear the
variation map and published lines/bestMove; when ready, post the position
and schedule an automatic `analyze({ depth: 20 })` (the 100 ms
`setTimeout`); when not ready, re-schedule itself. -/
def serviceSetPosition (fen : String) (s : ServiceState) : ServiceState :=
  let s := { s with currentFen := fen }
  let s := if s.state.thinking then serviceStop s else s
  let s := { s with
    linesMap := []
    state := { s.state with lines := [], bestMove := none } }
  if s.state.ready then
    let s := postToWorker (.setPosition fen) s
    { s with timers := s.timers ++ [.analyzeCall (some { depth := some 20 })] }
  else { s with timers := s.timers ++ [.setPositionCall fen] }

/-- `setPositionFromMoves(moves)`: like `setPosition`, with the FEN
reconstructed by replaying the moves through chess.js — modelled by the
external oracle `fenFromMoves` (which also covers the `catch` fallback to
the starting position). -/
def serviceSetPositionFromMoves (fenFromMoves : List String → String)
    (moves : List String) (s : ServiceState) : ServiceState :=
  let s := { s with currentFen := fenFromMoves moves }
  let s := if s.state.thinking then serviceStop s else s
  let s := { s with
    linesMap := []
    state := { s.state with lines := [], bestMove := none } }
  if s.state.ready then
    let s := postToWorker (.setPositionFromMoves (some moves)) s
    { s with timers := s.timers ++ [.analyzeCall (some { depth := some 20 })] }
  else { s with timers := s.timers ++ [.setPositionFromMovesCall moves] }

/-- `init(options)`: defer until ready, then post the worker `init` message
with the defaulted options (`multiPv = 3`, `threads = 1`, `skill` passed
through, possibly undefined). -/
def serviceInit (options : Option StockfishOptions) (s : ServiceState) : ServiceState :=
  if !s.state.ready then { s with timers := s.timers ++ [.initCall options] }
  else
    let o := options.getD {}
    postToWorker (.init (some
      { multiPv := some (o.multiPv.getD 3)
        threads := some (o.threads.getD 1)
        skill := o.skill })) s

/-- `setOption(name, value)`: post when ready, defer otherwise. -/
def serviceSetOption (name : String) (value : String) (s : ServiceState) : ServiceState :=
  if s.state.ready then postToWorker (.setOption name value) s
  else { s with timers := s.timers ++ [.setOptionCall name value] }

/-- chess.js starting-position FEN (`new Chess().fen()`). -/
def startingFen : String :=
  "rnbqkbnr/pppppppp/8/8/8/8/PPPPPPPP/RNBQKBNR w KQkq - 0 1"

/-- `newGame()`: reset the remembered FEN, stop a running search, clear all
search state; when ready, post `newGame` and schedule the automatic
`analyze({ depth: 20 })`. -/
def serviceNewGame (s : ServiceState) : ServiceState :=
  let s := { s with currentFen := startingFen }
  let s := if s.state.thinking then serviceStop s else s
  let s := { s with
    linesMap := []
    state := { s.state with lines := [], bestMove := none, thinking := false } }
  if s.state.ready then
    let s := postToWorker .newGame s
    { s with timers := s.timers ++ [.analyzeCall (some { depth := some 20 })] }
  else { s with timers := s.timers ++ [.newGameCall] }

/-- An event delivered by the worker to `worker.onmessage` of the service:
`{ type, data, line }` destructuring with possibly-missing fields. -/
inductive WorkerEvent where
  | readyEv
  | errorEv (data : Option String)
  | engineLineEv (data : Option String) (line : Option String)
deriving Repr, DecidableEq

/-- JS `a || b` on two possibly-undefined strings. -/
def jsOrStr : Option String → Option String → Option String
  | some a, b => if a = "" then b else some a
  | none, b => b

/-- `worker.onmessage` of the service: `ready` publishes readiness, `error`
publishes the error payload and forces `ready = false`, `engineLine` feeds
`data || line` to `handleEngineLine`. -/
def serviceOnWorkerEvent (sanConv : String → List String → List String)
    (ev : WorkerEvent) (s : ServiceState) : ServiceState :=
  match ev with
  | .readyEv => { s with state.ready := true, isEngineLoading := false }
  | .errorEv data =>
      { s with
        state := { s.state with error := data, ready := false }
        isEngineLoading := false }
  | .engineLineEv data line =>
      serviceHandleEngineLine sanConv ((jsOrStr data line).getD "") s

/-- Fire the next pending `setTimeout` callback of the service. -/
def fireNextTimer (fenFromMoves : List String → String) (s : ServiceState) : ServiceState :=
  match s.timers with
  | [] => s
  | t :: rest =>
    let s := { s with timers := rest }
    match t with
    | .analyzeCall p => serviceAnalyze p s
    | .setPositionCall fen => serviceSetPosition fen s
    | .setPositionFromMovesCall moves => serviceSetPositionFromMoves fenFromMoves moves s
    | .initCall o => serviceInit o s
    | .setOptionCall n v => serviceSetOption n v s
    | .newGameCall => serviceNewGame s

/-! ## Derived definitions used by the theorems -/

/-- The presence/truthiness test `info && info.multipv && info.score &&
info.pv && info.depth` that gates semantic consumption of an `info` line in
`handleEngineLine`. -/
def infoRecognized (i : InfoLine) : Bool :=
  truthyInt i.multipv && i.score.isSome && i.pv.isSome && truthyInt i.depth

/-- The classification of one engine output line, as performed by
`handleEngineLine` of the service (dispatch) together with `parseInfoLine`
(field extraction): this is the code's realization of the spec-level
`parseLine`. An `info` line whose parse lacks any of the required truthy
fields is not consumed semantically, i.e. it is unrecognized. -/
inductive ParsedLine where
  | protocolReady
  | engineIdleConfirmed
  | bestMoveLine (move : Option String)
  | searchInfo (info : InfoLine)
  | unrecognized
deriving Repr, DecidableEq

/-- `parseLine` realized from the code (see `ParsedLine`). -/
def classifyLine (line : String) : ParsedLine :=
  if line = "uciok" then .protocolReady
  else if line = "readyok" then .engineIdleConfirmed
  else if jsStartsWith line "bestmove " then .bestMoveLine ((jsSplit line).get? 1)
  else if jsStartsWith line "info " then
    match parseInfoLine line with
    | some info => if infoRecognized info then .searchInfo info else .unrecognized
    | none => .unrecognized
  else .unrecognized

/-- The variation-map component of one `serviceHandleEngineLine` step, as a
function of the remembered FEN and the current map only (the lemma
`handleEngineLine_linesMap` proves that the service step computes exactly
this). -/
def linesMapStep (sanConv : String → List String → List String) (fen : String)
    (m : List (Int × PvLine)) (line : String) : List (Int × PvLine) :=
  if line = "" then m
  else if line = "uciok" then m
  else if line = "readyok" then m
  else if jsStartsWith line "bestmove " then m
  else if jsStartsWith line "info " then
    match parseInfoLine line with
    | none => m
    | some info =>
      if truthyInt info.multipv && info.score.isSome && info.pv.isSome &&
          truthyInt info.depth then
        let multipv := info.multipv.getD 0
        let existing := mapGet m multipv
        if existing.isNone || info.depth.getD 0 ≥ (existing.map PvLine.depth).getD 0 then
          let sanMoves := sanConv fen (info.pv.getD [])
          mapSet m multipv
            { multipv := multipv
              score := info.score.getD ⟨none, none⟩
              depth := info.depth.getD 0
              seldepth := info.seldepth
              pv := info.pv.getD []
              san := if sanMoves.length > 0 then some sanMoves else none
              nodes := info.nodes
              nps := info.nps
              time := info.time }
        else m
      else m
  else m

/-- Feed a list of raw engine lines through the service, in delivery order. -/
def runLines (sanConv : String → List String → List String)
    (s : ServiceState) (L : List String) : ServiceState :=
  L.foldl (fun st l => serviceHandleEngineLine sanConv l st) s

/-! ## Helper lemmas -/

theorem jsStartsWith_iff (line p : String) :
    jsStartsWith line p = true ↔ line.data.take p.data.length = p.data := by
  unfold jsStartsWith
  exact beq_iff_eq

/-- A line starting with `"info "` does not start with `"bestmove "`. -/
theorem not_bestmove_of_info {line : String}
    (h : jsStartsWith line "info " = true) :
    jsStartsWith line "bestmove " = false := by
  rw [jsStartsWith_iff] at h
  by_contra hb
  rw [Bool.not_eq_false, jsStartsWith_iff] at hb
  have h5 := congrArg (List.take ("info ".data.length)) hb
  rw [List.take_take] at h5
  have hmin : min ("info ".data.length) ("bestmove ".data.length)
      = "info ".data.length := by decide
  rw [hmin, h] at h5
  exact absurd h5 (by decide)

/-- A line starting with `"info "` is none of the fixed protocol lines. -/
theorem info_line_not_fixed {line : String}
    (h : jsStartsWith line "info " = true) :
    line ≠ "" ∧ line ≠ "uciok" ∧ line ≠ "readyok" := by
  refine ⟨?_, ?_, ?_⟩ <;> rintro rfl <;> revert h <;> decide

/-- `find?` projected to the value, after the in-place rewrite performed by
`mapSet` on an existing key: at the written key the first hit is `(k, v)`
provided the key occurs. -/
theorem find?_rewrite_self (m : List (Int × PvLine)) (k : Int) (v : PvLine)
    (hmem : m.any (fun p => p.1 == k) = true) :
    (m.map (fun p => if p.1 == k then (k, v) else p)).find? (fun p => p.1 == k)
      = some (k, v) := by
  induction m with
  | nil => simp at hmem
  | cons hd tl ih =>
    by_cases hk : (hd.1 == k) = true
    · simp only [List.map_cons, if_pos hk]
      exact @List.find?_cons_of_pos _ (fun p => p.1 == k) (k, v) _ (by simp)
    · simp only [List.map_cons, if_neg hk]
      rw [@List.find?_cons_of_neg _ (fun p => p.1 == k) hd _ hk]
      exact ih (by simpa [List.any_cons, hk] using hmem)

/-- The in-place rewrite of `mapSet` does not affect lookups at other keys. -/
theorem find?_rewrite_ne (m : List (Int × PvLine)) (k k' : Int) (v : PvLine)
    (hne : k' ≠ k) :
    (m.map (fun p => if p.1 == k then (k, v) else p)).find? (fun p => p.1 == k')
      = m.find? (fun p => p.1 == k') := by
  induction m with
  | nil => simp
  | cons hd tl ih =>
    by_cases hk : (hd.1 == k) = true
    · have hd1 : hd.1 = k := by simpa using hk
      have h1 : ((k, v).1 == k') = false := by
        simp only [beq_eq_false_iff_ne]
        exact fun h => hne h.symm
      have h2 : (hd.1 == k') = false := by
        rw [hd1]
        simp only [beq_eq_false_iff_ne]
        exact fun h => hne h.symm
      simp only [List.map_cons, if_pos hk]
      rw [@List.find?_cons_of_neg _ (fun p => p.1 == k') (k, v) _ (by simp [h1]),
        @List.find?_cons_of_neg _ (fun p => p.1 == k') hd _ (by simp [h2])]
      exact ih
    · simp only [List.map_cons, if_neg hk]
      by_cases hk' : (hd.1 == k') = true
      · rw [@List.find?_cons_of_pos _ (fun p => p.1 == k') hd _ hk',
          @List.find?_cons_of_pos _ (fun p => p.1 == k') hd _ hk']
      · rw [@List.find?_cons_of_neg _ (fun p => p.1 == k') hd _ hk',
          @List.find?_cons_of_neg _ (fun p => p.1 == k') hd _ hk']
        exact ih

/-- `find?` over the appended singleton used by `mapSet` on a fresh key. -/
theorem find?_append_single (m : List (Int × PvLine)) (k : Int) (v : PvLine)
    (hmem : m.any (fun p => p.1 == k) = false) :
    (m ++ [(k, v)]).find? (fun p => p.1 == k) = some (k, v) := by
  induction m with
  | nil => simp [List.find?]
  | cons hd tl ih =>
    have hk : (hd.1 == k) = false := by
      by_contra h
      rw [Bool.not_eq_false] at h
      simp [List.any_cons, h] at hmem
    rw [List.cons_append,
      @List.find?_cons_of_neg _ (fun p => p.1 == k) hd _ (by simp [hk])]
    exact ih (by simpa [List.any_cons, hk] using hmem)

theorem find?_append_single_ne (m : List (Int × PvLine)) (k k' : Int) (v : PvLine)
    (hne : k' ≠ k) :
    (m ++ [(k, v)]).find? (fun p => p.1 == k') = m.find? (fun p => p.1 == k') := by
  induction m with
  | nil =>
    simp only [List.nil_append, List.find?]
    have h1 : ((k, v).1 == k') = false := by
      simp only [beq_eq_false_iff_ne]
      exact fun h => hne h.symm
    simp [List.find?, h1]
  | cons hd tl ih =>
    by_cases hk' : (hd.1 == k') = true
    · rw [List.cons_append,
        @List.find?_cons_of_pos _ (fun p => p.1 == k') hd _ hk',
        @List.find?_cons_of_pos _ (fun p => p.1 == k') hd _ hk']
    · rw [List.cons_append,
        @List.find?_cons_of_neg _ (fun p => p.1 == k') hd _ hk',
        @List.find?_cons_of_neg _ (fun p => p.1 == k') hd _ hk']
      exact ih

/-- `mapGet` after `mapSet` at the written key. -/
theorem mapGet_mapSet_self (m : List (Int × PvLine)) (k : Int) (v : PvLine) :
    mapGet (mapSet m k v) k = some v := by
  unfold mapGet mapSet
  by_cases hmem : m.any (fun p => p.1 == k) = true
  · rw [if_pos hmem, find?_rewrite_self m k v hmem]
    rfl
  · rw [if_neg hmem, find?_append_single m k v (eq_false_of_ne_true hmem)]
    rfl

/-- `mapGet` after `mapSet` at a different key. -/
theorem mapGet_mapSet_ne (m : List (Int × PvLine)) (k k' : Int) (v : PvLine)
    (hne : k' ≠ k) : mapGet (mapSet m k v) k' = mapGet m k' := by
  unfold mapGet mapSet
  by_cases hmem : m.any (fun p => p.1 == k) = true
  · rw [if_pos hmem, find?_rewrite_ne m k k' v hne]
  · rw [if_neg hmem, find?_append_single_ne m k k' v hne]

/-- Processing an engine line never changes the remembered FEN. -/
theorem handleEngineLine_currentFen (c : String → List String → List String)
    (l : String) (s : ServiceState) :
    (serviceHandleEngineLine c l s).currentFen = s.currentFen := by
  unfold serviceHandleEngineLine postToWorker
  dsimp only
  repeat' split <;> try rfl

/-- The variation map after one `handleEngineLine` step is a function of the
line, the remembered FEN and the map alone (`linesMapStep`). -/
theorem handleEngineLine_linesMap (c : String → List String → List String)
    (l : String) (s : ServiceState) :
    (serviceHandleEngineLine c l s).linesMap
      = linesMapStep c s.currentFen s.linesMap l := by
  unfold serviceHandleEngineLine linesMapStep postToWorker
  dsimp only
  repeat' split <;> try rfl

/-- `runLines` never changes the remembered FEN. -/
theorem runLines_currentFen (c : String → List String → List String)
    (L : List String) : ∀ s : ServiceState,
    (runLines c s L).currentFen = s.currentFen := by
  induction L with
  | nil => intro s; rfl
  | cons l L ih =>
    intro s
    show (runLines c (serviceHandleEngineLine c l s) L).currentFen = _
    rw [ih, handleEngineLine_currentFen]

/-- The variation map after a whole episode of engine lines is the fold of
`linesMapStep` from the initial map, at the (constant) remembered FEN. -/
theorem runLines_linesMap (c : String → List String → List String)
    (L : List String) : ∀ s : ServiceState,
    (runLines c s L).linesMap
      = L.foldl (fun m l => linesMapStep c s.currentFen m l) s.linesMap := by
  induction L with
  | nil => intro s; rfl
  | cons l L ih =>
    intro s
    show (runLines c (serviceHandleEngineLine c l s) L).linesMap = _
    rw [ih, handleEngineLine_currentFen, handleEngineLine_linesMap,
      List.foldl_cons]

/-- `analyze` preserves the remembered FEN. -/
theorem serviceAnalyze_currentFen (p : Option AnalyzeParams) (s : ServiceState) :
    (serviceAnalyze p s).currentFen = s.currentFen := by
  unfold serviceAnalyze postToWorker
  dsimp only
  repeat' split <;> try rfl

/-- `analyze` always clears the variation map and the published
lines/bestMove, and raises `thinking`. -/
theorem serviceAnalyze_clears (p : Option AnalyzeParams) (s : ServiceState) :
    (serviceAnalyze p s).linesMap = [] ∧
    (serviceAnalyze p s).state.lines = [] ∧
    (serviceAnalyze p s).state.bestMove = none ∧
    (serviceAnalyze p s).state.thinking = true := by
  unfold serviceAnalyze postToWorker
  dsimp only
  by_cases h : s.state.ready = true <;> by_cases hw : s.worker = true <;>
    simp [h, hw]

/-- The `mapSet` performed under the monotonic-replacement guard can only
put an entry of depth ≥ the stored one at the written key, and leaves every
other key alone. -/
theorem mapSet_mono_aux (m : List (Int × PvLine)) (idx k : Int) (e v : PvLine)
    (h : mapGet m idx = some e)
    (hcond : ((mapGet m k).isNone ||
      decide (v.depth ≥ (Option.map PvLine.depth (mapGet m k)).getD 0)) = true) :
    ∃ e', mapGet (mapSet m k v) idx = some e' ∧ e.depth ≤ e'.depth := by
  by_cases hidx : idx = k
  · subst hidx
    rw [h] at hcond
    simp only [Option.isNone_some, Bool.false_or, Option.map_some,
      Option.getD_some, decide_eq_true_eq] at hcond
    exact ⟨v, mapGet_mapSet_self _ _ _, hcond⟩
  · exact ⟨e, by rw [mapGet_mapSet_ne _ _ _ _ hidx]; exact h, le_refl _⟩

/-- One `linesMapStep` can only replace an entry by one of depth ≥ the
stored depth; entries are never removed. -/
theorem linesMapStep_mono (c : String → List String → List String)
    (fen : String) (m : List (Int × PvLine)) (line : String) (idx : Int)
    (e : PvLine) (h : mapGet m idx = some e) :
    ∃ e', mapGet (linesMapStep c fen m line) idx = some e' ∧ e.depth ≤ e'.depth := by
  unfold linesMapStep
  dsimp only
  repeat' split
  all_goals try exact ⟨e, h, le_refl _⟩
  all_goals exact mapSet_mono_aux _ _ _ _ _ h (by assumption)

/-- Fold form of `linesMapStep_mono` over any episode of lines. -/
theorem linesMapFold_mono (c : String → List String → List String)
    (fen : String) (L : List String) : ∀ (m : List (Int × PvLine)) (idx : Int)
    (e : PvLine), mapGet m idx = some e →
    ∃ e', mapGet (L.foldl (fun m l => linesMapStep c fen m l) m) idx = some e' ∧
      e.depth ≤ e'.depth := by
  induction L with
  | nil => exact fun m idx e h => ⟨e, h, le_refl _⟩
  | cons l L ih =>
    intro m idx e h
    obtain ⟨e1, h1, hle1⟩ := linesMapStep_mono c fen m l idx e h
    obtain ⟨e2, h2, hle2⟩ := ih _ idx e1 h1
    exact ⟨e2, h2, le_trans hle1 hle2⟩

/-! ## Claim theorems -/

/-- C6: `parseLine` (realized by `handleEngineLine`'s dispatch over
`parseInfoLine`) maps `"info depth 10 multipv 1 score cp 35 pv e2e4 e7e5"`
to a `SearchInfo` with `depth = 10`, `multipv = 1`, `score = {cp, 35}` and
`pv = ["e2e4", "e7e5"]` (the `pv` keyword consuming all remaining tokens),
and maps `"info string some debug text"` to `Unrecognized`; both parses are
total (no exception). -/
theorem parse_examples :
    classifyLine "info depth 10 multipv 1 score cp 35 pv e2e4 e7e5"
      = .searchInfo { depth := some 10, multipv := some 1,
                      score := some ⟨some "cp", some 35⟩,
                      pv := some ["e2e4", "e7e5"] } ∧
    classifyLine "info string some debug text" = .unrecognized := by
  constructor <;> decide

/-- C4: within one search episode, for any sequence of engine lines, a stored
line for a given `variationIndex` (`multipv`) is only ever replaced by a
record of depth ≥ the stored depth, so the stored depth is non-decreasing
over the sequence regardless of arrival order. -/
theorem stored_depth_monotone (c : String → List String → List String)
    (s : ServiceState) (L : List String) (idx : Int) (e e' : PvLine)
    (h1 : mapGet s.linesMap idx = some e)
    (h2 : mapGet (runLines c s L).linesMap idx = some e') :
    e.depth ≤ e'.depth := by
  rw [runLines_linesMap] at h2
  obtain ⟨e'', he'', hle⟩ := linesMapFold_mono c s.currentFen L s.linesMap idx e h1
  rw [he''] at h2
  exact (Option.some.inj h2) ▸ hle

/-- Witness for C4, realizing the spec's example: a stored depth-10 line for
`multipv 1`, fed a depth-8 and then a depth-12 report, ends at depth 12 (the
depth-8 report is discarded). -/
theorem stored_depth_monotone_witness :
    (⟨1, ⟨some "cp", some 30⟩, 10, none, ["e2e4"], none, none, none, none⟩ : PvLine).depth ≤
    (⟨1, ⟨some "cp", some 25⟩, 12, none, ["e2e4", "e7e5"], none, none, none, none⟩ : PvLine).depth ∧
    mapGet (runLines (fun _ _ => [])
        ⟨true, ⟨true, true, [], none, [], none⟩,
          [(1, ⟨1, ⟨some "cp", some 30⟩, 10, none, ["e2e4"], none, none, none, none⟩)],
          false, "", [], []⟩
        ["info depth 8 multipv 1 score cp 20 pv d2d4",
         "info depth 12 multipv 1 score cp 25 pv e2e4 e7e5"]).linesMap 1
      = some ⟨1, ⟨some "cp", some 25⟩, 12, none, ["e2e4", "e7e5"], none, none, none, none⟩ :=
  ⟨stored_depth_monotone (fun _ _ => [])
      ⟨true, ⟨true, true, [], none, [], none⟩,
        [(1, ⟨1, ⟨some "cp", some 30⟩, 10, none, ["e2e4"], none, none, none, none⟩)],
        false, "", [], []⟩
      ["info depth 8 multipv 1 score cp 20 pv d2d4",
       "info depth 12 multipv 1 score cp 25 pv e2e4 e7e5"]
      1 _ _ (by decide) (by decide),
    by decide⟩

/-- C5: `analyze()` starts a fresh episode: it clears the variation map and
`bestMove` (and published `lines`) before any new output is ingested, and
consequently, after a second `analyze` the variation map depends only on the
lines received after that second call — the first episode leaves no residue
(two different first episodes are indistinguishable). -/
theorem analyze_fresh_episode (c : String → List String → List String)
    (s : ServiceState) (p1 p2 : Option AnalyzeParams) (L1 L1' L2 : List String) :
    ((serviceAnalyze p2 s).linesMap = [] ∧
     (serviceAnalyze p2 s).state.lines = [] ∧
     (serviceAnalyze p2 s).state.bestMove = none) ∧
    (runLines c (serviceAnalyze p2 (runLines c (serviceAnalyze p1 s) L1)) L2).linesMap
      = (runLines c (serviceAnalyze p2 (runLines c (serviceAnalyze p1 s) L1')) L2).linesMap := by
  constructor
  · obtain ⟨a, b, d, _⟩ := serviceAnalyze_clears p2 s
    exact ⟨a, b, d⟩
  · rw [runLines_linesMap, runLines_linesMap,
      (serviceAnalyze_clears p2 _).1, (serviceAnalyze_clears p2 _).1,
      serviceAnalyze_currentFen, serviceAnalyze_currentFen,
      runLines_currentFen, runLines_currentFen]

/-- C7: an `info` line whose parse is missing any of the required fields
`multipv`, `score`, `pv`, `depth` leaves the variation map, the published
`lines` and `bestMove` (and the other semantic fields) unchanged, while the
raw line is still appended untouched to the (bounded) raw log. -/
theorem malformed_info_no_mutation (c : String → List String → List String)
    (line : String) (s : ServiceState) (i : InfoLine)
    (hstart : jsStartsWith line "info " = true)
    (hparse : parseInfoLine line = some i)
    (hmiss : i.multipv = none ∨ i.score = none ∨ i.pv = none ∨ i.depth = none) :
    (serviceHandleEngineLine c line s).linesMap = s.linesMap ∧
    (serviceHandleEngineLine c line s).state.lines = s.state.lines ∧
    (serviceHandleEngineLine c line s).state.bestMove = s.state.bestMove ∧
    (serviceHandleEngineLine c line s).state.thinking = s.state.thinking ∧
    (serviceHandleEngineLine c line s).state.ready = s.state.ready ∧
    (serviceHandleEngineLine c line s).state.error = s.state.error ∧
    (serviceHandleEngineLine c line s).workerPosted = s.workerPosted ∧
    (serviceHandleEngineLine c line s).state.raw
      = (s.state.raw.drop (s.state.raw.length - 99)) ++ [line] := by
  obtain ⟨h0, h1, h2⟩ := info_line_not_fixed hstart
  have hbm := not_bestmove_of_info hstart
  have hguard : (truthyInt i.multipv && i.score.isSome && i.pv.isSome &&
      truthyInt i.depth) = false := by
    rcases hmiss with hm | hm | hm | hm <;> simp [hm, truthyInt]
  unfold serviceHandleEngineLine
  simp [h0, h1, h2, hbm, hstart, hparse, hguard]

/-- Witness for C7: the line `"info depth 10 score cp 35 pv e2e4"` (missing
`multipv`) leaves the variation map unchanged. -/
theorem malformed_info_no_mutation_witness :
    (serviceHandleEngineLine (fun _ _ => []) "info depth 10 score cp 35 pv e2e4"
        ⟨true, ⟨true, false, [], none, [], none⟩, [], false, "", [], []⟩).linesMap
      = (⟨true, ⟨true, false, [], none, [], none⟩, [], false, "", [],
          []⟩ : ServiceState).linesMap :=
  (malformed_info_no_mutation (fun _ _ => []) "info depth 10 score cp 35 pv e2e4"
    ⟨true, ⟨true, false, [], none, [], none⟩, [], false, "", [], []⟩
    { depth := some 10, score := some ⟨some "cp", some 35⟩, pv := some ["e2e4"] }
    (by decide) (by decide) (Or.inl rfl)).1

/-- C2: with the engine module loaded but readiness not yet confirmed,
commands `A`, `B`, `C` issued in that order are buffered in arrival order
(nothing is transmitted before `readyok`), and the first `readyok` flushes
them to the engine in exactly the order `A`, `B`, `C`, each exactly once,
emptying the queue. -/
theorem queue_flush_order (s : TsWorkerState) (A B C : String)
    (heng : s.engine = true) (hrdy : s.isReady = false)
    (hq : s.commandQueue = [])
    (hA : A ≠ "") (hB : B ≠ "") (hC : C ≠ "") :
    (tsSendCommand C (tsSendCommand B (tsSendCommand A s))).engineSent
      = s.engineSent ∧
    (tsSendCommand C (tsSendCommand B (tsSendCommand A s))).commandQueue
      = [A, B, C] ∧
    (tsHandleEngineLine "readyok"
        (tsSendCommand C (tsSendCommand B (tsSendCommand A s)))).engineSent
      = s.engineSent ++ [A, B, C] ∧
    (tsHandleEngineLine "readyok"
        (tsSendCommand C (tsSendCommand B (tsSendCommand A s)))).commandQueue
      = [] ∧
    (tsHandleEngineLine "readyok"
        (tsSendCommand C (tsSendCommand B (tsSendCommand A s)))).isReady
      = true := by
  have e1 : ¬("readyok" : String) = "uciok" := by decide
  have e2 : jsStartsWith "readyok" "bestmove " = false := by decide
  unfold tsSendCommand tsHandleEngineLine tsProcessQueue
  simp [heng, hrdy, hq, hA, hB, hC, e1, e2]

/-- Witness for C2: three concrete commands queued before readiness are
flushed in order on `readyok`. -/
theorem queue_flush_order_witness :
    (tsHandleEngineLine "readyok" (tsSendCommand "stop" (tsSendCommand "go depth 20"
        (tsSendCommand "position startpos" ⟨true, false, [], [], []⟩)))).engineSent
      = ([] : List String) ++ ["position startpos", "go depth 20", "stop"] :=
  (queue_flush_order ⟨true, false, [], [], []⟩ "position startpos" "go depth 20"
    "stop" rfl rfl rfl (by decide) (by decide) (by decide)).2.2.1

/-- C8 counterexample: an analyze request carrying `depth = 0` and no
movetime makes the worker transmit the default `"go depth 20"`, not
`"go depth 0"` — so "go depth <n> when only depth is given" fails at
`n = 0` (zero depth is falsy and falls through to the default). -/
theorem go_depth_zero_counterexample :
    (jsWorkerOnMessage (.analyze (some { depth := some 0, movetimeMs := none }))
        ⟨true, []⟩).engineSent = ["go depth 20"] ∧
    ¬ (jsWorkerOnMessage (.analyze (some { depth := some 0, movetimeMs := none }))
        ⟨true, []⟩).engineSent = ["go depth 0"] := by
  constructor <;> decide

/-- C8 (amended): per analyze request the worker transmits exactly one `go`
command: `"go movetime <n>"` when `movetimeMs` is present and non-zero
(taking precedence over `depth`), `"go depth <n>"` when `depth` is present
and non-zero and movetime is absent/zero, and the fixed default
`"go depth 20"` otherwise. -/
theorem go_command_selection (s : JsWorkerState) (d : Option AnalyzeParams)
    (heng : s.engine = true) :
    (jsWorkerOnMessage (.analyze d) s).engineSent = s.engineSent ++ [jsGoCommand d] ∧
    (∀ v, (d.getD {}).movetimeMs = some v → v ≠ 0 →
      jsGoCommand d = "go movetime " ++ toString v) ∧
    (truthyInt (d.getD {}).movetimeMs = false →
      ∀ v, (d.getD {}).depth = some v → v ≠ 0 →
      jsGoCommand d = "go depth " ++ toString v) ∧
    (truthyInt (d.getD {}).movetimeMs = false →
      truthyInt (d.getD {}).depth = false →
      jsGoCommand d = "go depth 20") := by
  refine ⟨?_, ?_, ?_, ?_⟩
  · unfold jsWorkerOnMessage
    simp [heng]
  · intro v hv hnz
    have hvt : truthyInt (some v) = true := by simpa [truthyInt] using hnz
    unfold jsGoCommand
    dsimp only
    rw [hv]
    simp [hvt]
  · intro hmf v hv hnz
    have hvt : truthyInt (some v) = true := by simpa [truthyInt] using hnz
    unfold jsGoCommand
    dsimp only
    rw [hv]
    simp [hmf, hvt]
  · intro hmf hdf
    unfold jsGoCommand
    simp [hmf, hdf]

/-- Witness for C8: with both `movetimeMs = 500` and `depth = 12` supplied,
exactly one go command is transmitted and movetime takes precedence. -/
theorem go_command_selection_witness :
    (jsWorkerOnMessage (.analyze (some { depth := some 12, movetimeMs := some 500 }))
        ⟨true, []⟩).engineSent
      = ([] : List String) ++ [jsGoCommand (some { depth := some 12, movetimeMs := some 500 })] ∧
    jsGoCommand (some { depth := some 12, movetimeMs := some 500 })
      = "go movetime " ++ toString (500 : Int) :=
  ⟨(go_command_selection ⟨true, []⟩ (some { depth := some 12, movetimeMs := some 500 }) rfl).1,
   (go_command_selection ⟨true, []⟩ (some { depth := some 12, movetimeMs := some 500 }) rfl).2.1
     500 rfl (by decide)⟩

/-- Two appends with distinct fixed heads (within the first `n` characters,
`n` within both heads) are distinct strings. -/
theorem append_ne_of_take_ne (p a q b : String) (n : Nat)
    (hp : n ≤ p.data.length) (hq : n ≤ q.data.length)
    (hne : p.data.take n ≠ q.data.take n) : p ++ a ≠ q ++ b := by
  intro h
  apply hne
  have hd := congrArg String.data h
  rw [String.data_append, String.data_append] at hd
  have h2 := congrArg (List.take n) hd
  rw [List.take_append_eq_append_take, List.take_append_eq_append_take] at h2
  have hp0 : n - p.data.length = 0 := by omega
  have hq0 : n - q.data.length = 0 := by omega
  rw [hp0, hq0] at h2
  simpa using h2

/-- An append with a fixed head differing from a literal within the head is
distinct from that literal. -/
theorem append_ne_lit (p a q : String) (n : Nat)
    (hp : n ≤ p.data.length)
    (hne : p.data.take n ≠ q.data.take n) : p ++ a ≠ q := by
  intro h
  apply hne
  have hd := congrArg String.data h
  rw [String.data_append] at hd
  have h2 := congrArg (List.take n) hd
  rw [List.take_append_eq_append_take] at h2
  have hp0 : n - p.data.length = 0 := by omega
  rw [hp0] at h2
  simpa using h2

/-- C9: during initialization the worker always sends the MultiPV and
Threads options, and sends a `Skill Level` option exactly when a skill level
was explicitly provided — with `skill` omitted, no command of the batch is a
Skill Level option (verified against `stockfish.worker.js`, the worker the
service actually loads). -/
theorem init_skill_iff_provided (s : JsWorkerState) (data : Option JsInitData)
    (heng : s.engine = true) :
    (jsWorkerOnMessage (.init data) s).engineSent = s.engineSent ++ jsInitCmds data ∧
    ("setoption name MultiPV value " ++ toString ((data.getD {}).multiPv.getD 3))
      ∈ jsInitCmds data ∧
    ("setoption name Threads value " ++ toString ((data.getD {}).threads.getD 1))
      ∈ jsInitCmds data ∧
    ((∃ k, (data.getD {}).skill = some k ∧
       ("setoption name Skill Level value " ++ toString k) ∈ jsInitCmds data) ∨
     ((data.getD {}).skill = none ∧
       ∀ k : Int, ("setoption name Skill Level value " ++ toString k) ∉ jsInitCmds data)) := by
  refine ⟨?_, ?_, ?_, ?_⟩
  · unfold jsWorkerOnMessage
    simp [heng]
  · unfold jsInitCmds
    cases h : (data.getD {}).skill <;> simp [h]
  · unfold jsInitCmds
    cases h : (data.getD {}).skill <;> simp [h]
  · cases h : (data.getD {}).skill with
    | some k0 =>
      left
      refine ⟨k0, rfl, ?_⟩
      unfold jsInitCmds
      simp [h]
    | none =>
      right
      refine ⟨rfl, ?_⟩
      intro k hk
      unfold jsInitCmds at hk
      simp only [h, List.append_nil, List.mem_append, List.mem_cons,
        List.not_mem_nil, or_false] at hk
      obtain (h1 | h1 | h1) | h1 := hk
      · exact append_ne_of_take_ne _ _ _ _ 16 (by decide) (by decide) (by decide) h1
      · exact append_ne_of_take_ne _ _ _ _ 16 (by decide) (by decide) (by decide) h1
      · exact append_ne_lit _ _ _ 16 (by decide) (by decide) h1
      · exact append_ne_lit _ _ _ 16 (by decide) (by decide) h1

/-- Witness for C9: a concrete init with `skill = 5` provided. -/
theorem init_skill_iff_provided_witness :
    (jsWorkerOnMessage (.init (some { multiPv := some 2, threads := some 1, skill := some 5 }))
        ⟨true, []⟩).engineSent
      = ([] : List String)
        ++ jsInitCmds (some { multiPv := some 2, threads := some 1, skill := some 5 }) ∧
    ("setoption name MultiPV value "
        ++ toString (((some { multiPv := some 2, threads := some 1, skill := some 5 }
          : Option JsInitData).getD {}).multiPv.getD 3))
      ∈ jsInitCmds (some { multiPv := some 2, threads := some 1, skill := some 5 }) ∧
    ("setoption name Threads value "
        ++ toString (((some { multiPv := some 2, threads := some 1, skill := some 5 }
          : Option JsInitData).getD {}).threads.getD 1))
      ∈ jsInitCmds (some { multiPv := some 2, threads := some 1, skill := some 5 }) ∧
    ((∃ k, ((some { multiPv := some 2, threads := some 1, skill := some 5 }
          : Option JsInitData).getD {}).skill = some k ∧
       ("setoption name Skill Level value " ++ toString k)
         ∈ jsInitCmds (some { multiPv := some 2, threads := some 1, skill := some 5 })) ∨
     (((some { multiPv := some 2, threads := some 1, skill := some 5 }
          : Option JsInitData).getD {}).skill = none ∧
       ∀ k : Int, ("setoption name Skill Level value " ++ toString k)
         ∉ jsInitCmds (some { multiPv := some 2, threads := some 1, skill := some 5 }))) :=
  init_skill_iff_provided ⟨true, []⟩
    (some { multiPv := some 2, threads := some 1, skill := some 5 }) rfl

/-- C1 counterexample: on a ready service, `setPosition` itself schedules an
automatic `analyze({ depth: 20 })`; once that self-scheduled callback fires
(no caller-issued analyze), `thinking` is raised and the analyze message —
which the worker turns into `"go depth 20"` — is transmitted. A search does
start as a consequence of `setPosition` alone. -/
theorem setPosition_autostart_counterexample :
    ((serviceSetPosition "4k3/8/8/8/8/8/8/4K3 w - - 0 1"
        ⟨true, ⟨true, false, [], none, [], none⟩, [], false, "", [], []⟩).timers
      = [.analyzeCall (some { depth := some 20 })]) ∧
    ((fireNextTimer (fun _ => startingFen)
        (serviceSetPosition "4k3/8/8/8/8/8/8/4K3 w - - 0 1"
          ⟨true, ⟨true, false, [], none, [], none⟩, [], false, "", [], []⟩)).state.thinking
      = true) ∧
    ((fireNextTimer (fun _ => startingFen)
        (serviceSetPosition "4k3/8/8/8/8/8/8/4K3 w - - 0 1"
          ⟨true, ⟨true, false, [], none, [], none⟩, [], false, "", [], []⟩)).workerPosted
      = [.setPosition "4k3/8/8/8/8/8/8/4K3 w - - 0 1",
         .analyze (some { depth := some 20 })]) ∧
    ((jsWorkerOnMessage (.analyze (some { depth := some 20 })) ⟨true, []⟩).engineSent
      = ["go depth 20"]) := by
  decide

/-- C1 (amended): `setPosition(fen)` records the FEN and posts the position
message; synchronously it posts no analyze request and leaves `thinking`
down; but it schedules an automatic `analyze({ depth: 20 })` callback whose
firing raises `thinking` and posts the analyze request — the search restart
is self-scheduled by `setPosition`, not left to a caller-issued `analyze`. -/
theorem setPosition_contract (fen : String) (s : ServiceState)
    (f : List String → String)
    (hrdy : s.state.ready = true) (hw : s.worker = true)
    (hth : s.state.thinking = false) (ht0 : s.timers = []) :
    (serviceSetPosition fen s).currentFen = fen ∧
    (serviceSetPosition fen s).workerPosted
      = s.workerPosted ++ [.setPosition fen] ∧
    (serviceSetPosition fen s).state.thinking = false ∧
    (serviceSetPosition fen s).state.lines = [] ∧
    (serviceSetPosition fen s).state.bestMove = none ∧
    (serviceSetPosition fen s).timers = [.analyzeCall (some { depth := some 20 })] ∧
    (fireNextTimer f (serviceSetPosition fen s)).state.thinking = true ∧
    (fireNextTimer f (serviceSetPosition fen s)).workerPosted
      = s.workerPosted ++ [.setPosition fen, .analyze (some { depth := some 20 })] := by
  unfold serviceSetPosition serviceStop fireNextTimer serviceAnalyze postToWorker
  dsimp only
  simp [hrdy, hw, hth, ht0]

/-- Witness for C1 (amended) at a concrete ready state. -/
theorem setPosition_contract_witness :
    (serviceSetPosition "8/8/8/8/8/8/8/K6k w - - 0 1"
        ⟨true, ⟨true, false, [], none, [], none⟩, [], false, "", [], []⟩).currentFen
      = "8/8/8/8/8/8/8/K6k w - - 0 1" ∧
    (fireNextTimer (fun _ => startingFen)
        (serviceSetPosition "8/8/8/8/8/8/8/K6k w - - 0 1"
          ⟨true, ⟨true, false, [], none, [], none⟩, [], false, "", [], []⟩)).state.thinking
      = true :=
  ⟨(setPosition_contract "8/8/8/8/8/8/8/K6k w - - 0 1"
      ⟨true, ⟨true, false, [], none, [], none⟩, [], false, "", [], []⟩
      (fun _ => startingFen) rfl rfl rfl rfl).1,
   (setPosition_contract "8/8/8/8/8/8/8/K6k w - - 0 1"
      ⟨true, ⟨true, false, [], none, [], none⟩, [], false, "", [], []⟩
      (fun _ => startingFen) rfl rfl rfl rfl).2.2.2.2.2.2.1⟩

/-- C3 counterexample: after a fatal initialization failure (`ready = false`,
`error` recorded), a subsequent `analyze()` is not a no-op on the observable
state: it raises `thinking` and clears `lines` and `bestMove`, and schedules
a retry of itself. -/
theorem analyze_noop_counterexample :
    ((serviceAnalyze none
        ⟨true, ⟨false, false,
            [⟨1, ⟨some "cp", some 30⟩, 10, none, ["e2e4"], none, none, none, none⟩],
            some "e2e4", [], some "Failed to initialize Stockfish"⟩,
          [(1, ⟨1, ⟨some "cp", some 30⟩, 10, none, ["e2e4"], none, none, none, none⟩)],
          false, "", [], []⟩).state.thinking = true) ∧
    ((⟨true, ⟨false, false,
            [⟨1, ⟨some "cp", some 30⟩, 10, none, ["e2e4"], none, none, none, none⟩],
            some "e2e4", [], some "Failed to initialize Stockfish"⟩,
          [(1, ⟨1, ⟨some "cp", some 30⟩, 10, none, ["e2e4"], none, none, none, none⟩)],
          false, "", [], []⟩ : ServiceState).state.thinking = false) ∧
    ((serviceAnalyze none
        ⟨true, ⟨false, false,
            [⟨1, ⟨some "cp", some 30⟩, 10, none, ["e2e4"], none, none, none, none⟩],
            some "e2e4", [], some "Failed to initialize Stockfish"⟩,
          [(1, ⟨1, ⟨some "cp", some 30⟩, 10, none, ["e2e4"], none, none, none, none⟩)],
          false, "", [], []⟩).state.lines = []) ∧
    ((⟨true, ⟨false, false,
            [⟨1, ⟨some "cp", some 30⟩, 10, none, ["e2e4"], none, none, none, none⟩],
            some "e2e4", [], some "Failed to initialize Stockfish"⟩,
          [(1, ⟨1, ⟨some "cp", some 30⟩, 10, none, ["e2e4"], none, none, none, none⟩)],
          false, "", [], []⟩ : ServiceState).state.lines ≠ []) ∧
    ((serviceAnalyze none
        ⟨true, ⟨false, false,
            [⟨1, ⟨some "cp", some 30⟩, 10, none, ["e2e4"], none, none, none, none⟩],
            some "e2e4", [], some "Failed to initialize Stockfish"⟩,
          [(1, ⟨1, ⟨some "cp", some 30⟩, 10, none, ["e2e4"], none, none, none, none⟩)],
          false, "", [], []⟩).state.bestMove = none) := by
  decide

/-- C3 (amended): once a fatal failure is observed, the service records the
error and forces `ready = false`; while not ready, `analyze()` transmits
nothing to the worker and keeps `ready` false, the error and raw log intact —
but it is not a state no-op: it raises `thinking`, clears `lines` and
`bestMove`, and re-schedules itself. -/
theorem analyze_when_not_ready (c : String → List String → List String)
    (d : Option String) (p : Option AnalyzeParams) (s : ServiceState)
    (hrdy : s.state.ready = false) :
    (serviceOnWorkerEvent c (.errorEv d) s).state.ready = false ∧
    (serviceOnWorkerEvent c (.errorEv d) s).state.error = d ∧
    (serviceAnalyze p s).workerPosted = s.workerPosted ∧
    (serviceAnalyze p s).state.ready = false ∧
    (serviceAnalyze p s).state.error = s.state.error ∧
    (serviceAnalyze p s).state.raw = s.state.raw ∧
    (serviceAnalyze p s).state.thinking = true ∧
    (serviceAnalyze p s).state.lines = [] ∧
    (serviceAnalyze p s).state.bestMove = none ∧
    (serviceAnalyze p s).timers = s.timers ++ [.analyzeCall p] := by
  unfold serviceOnWorkerEvent serviceAnalyze postToWorker
  dsimp only
  simp [hrdy]

/-- Witness for C3 (amended) at a concrete failed state. -/
theorem analyze_when_not_ready_witness :
    (serviceAnalyze none
        ⟨true, ⟨false, false, [], none, [], some "Failed to load"⟩, [],
          false, "", [], []⟩).workerPosted = ([] : List JsWorkerMsg) ∧
    (serviceAnalyze none
        ⟨true, ⟨false, false, [], none, [], some "Failed to load"⟩, [],
          false, "", [], []⟩).state.ready = false :=
  ⟨(analyze_when_not_ready (fun _ _ => []) none none
      ⟨true, ⟨false, false, [], none, [], some "Failed to load"⟩, [],
        false, "", [], []⟩ rfl).2.2.1,
   (analyze_when_not_ready (fun _ _ => []) none none
      ⟨true, ⟨false, false, [], none, [], some "Failed to load"⟩, [],
        false, "", [], []⟩ rfl).2.2.2.1⟩

/-- C10: `stop()` mutates only the `thinking` flag of the published state:
`lines`, `bestMove`, `raw`, `ready` and `error` are unchanged (and so is the
internal variation map), whether or not the engine is ready. -/
theorem stop_frame (s : ServiceState) :
    (serviceStop s).state.thinking = false ∧
    (serviceStop s).state.lines = s.state.lines ∧
    (serviceStop s).state.bestMove = s.state.bestMove ∧
    (serviceStop s).state.raw = s.state.raw ∧
    (serviceStop s).state.ready = s.state.ready ∧
    (serviceStop s).state.error = s.state.error ∧
    (serviceStop s).linesMap = s.linesMap := by
  unfold serviceStop postToWorker
  dsimp only
  by_cases h : s.state.ready = true <;> by_cases hw : s.worker = true <;>
    simp [h, hw]

end ChessV10
